import Mathlib

/-!
Shallow embedding of `uav_gym/uav_gym/envs/box2d/uav_lander.py` (class
`UavLander`), the terrain/vehicle generation and the step reward/termination
logic of a Box2D lunar-lander variant.

Machine floats of the source are modelled as real numbers; the seeded numpy
generator `self.np_random` is modelled as a stream of unit-interval samples,
`uniform(lo, hi)` consuming one sample `u` and returning `lo + (hi - lo) * u`.
Python list indexing (with negative-index wraparound) is modelled by `pyGet`
and `pySet`.
-/

namespace UavLander

/-! ### Constants imported from `gymnasium.envs.box2d.lunar_lander` -/

def VIEWPORT_W : ℚ := 600
def VIEWPORT_H : ℚ := 400
def SCALE : ℚ := 30
def LEG_AWAY : ℚ := 20
def LEG_DOWN : ℚ := 18
def LEG_SPRING_TORQUE : ℚ := 40
def INITIAL_RANDOM : ℚ := 1000

/-- `W = VIEWPORT_W / SCALE` (line 58). -/
def W : ℚ := VIEWPORT_W / SCALE

/-- `H = VIEWPORT_H / SCALE` (line 59). -/
def H : ℚ := VIEWPORT_H / SCALE

/-- `width_para = 6` (line 61). -/
def width_para : ℕ := 6

/-! ### The seeded random generator -/

/-- The per-episode seeded generator `self.np_random`, modelled as a stream of
unit-interval samples together with a cursor. -/
structure Rng where
  draws : ℕ → ℝ
  idx : ℕ

/-- The stream really consists of unit-interval samples. -/
def Rng.wellFormed (r : Rng) : Prop := ∀ n, 0 ≤ r.draws n ∧ r.draws n ≤ 1

/-- Consume one unit sample. -/
def Rng.next (r : Rng) : ℝ × Rng := (r.draws r.idx, ⟨r.draws, r.idx + 1⟩)

/-- `np_random.uniform(lo, hi)`: one sample scaled to `[lo, hi]`. -/
noncomputable def Rng.uniform (r : Rng) (lo hi : ℝ) : ℝ × Rng :=
  let p := r.next
  (lo + (hi - lo) * p.1, p.2)

/-- `np_random.uniform(lo, hi, size=(n,))`: `n` samples drawn in sequence. -/
noncomputable def Rng.uniformVec (lo hi : ℝ) : ℕ → Rng → List ℝ × Rng
  | 0, r => ([], r)
  | n + 1, r =>
    let p := r.uniform lo hi
    let q := Rng.uniformVec lo hi n p.2
    (p.1 :: q.1, q.2)

/-! ### Python list indexing -/

/-- Python read `xs[i]`: a negative index wraps around (`xs[-1]` is the last
element).  Out-of-range reads (which would raise in Python and never happen in
the modelled runs) default to `0`. -/
def pyGet (xs : List ℝ) (i : ℤ) : ℝ :=
  let j := if i < 0 then i + xs.length else i
  xs.getD j.toNat 0

/-- Python write `xs[i] = v`, with the same negative-index wraparound. -/
def pySet (xs : List ℝ) (i : ℤ) (v : ℝ) : List ℝ :=
  let j := if i < 0 then i + xs.length else i
  xs.set j.toNat v

/-! ### Terrain generation (`_gen_uav_terrain`, lines 57–100) -/

/-- `for i in range(width_node): smooth_y[CHUNKS//2 - (i+1)] = helipad_y -
diff_high*(i+1); smooth_y[CHUNKS//2 + (i+1)] = helipad_y + diff_high*(i+1)`
(lines 85–87), written as a recursion on the number of completed iterations. -/
def platformLoop (c : ℤ) (hy d : ℝ) : ℕ → List ℝ → List ℝ
  | 0, s => s
  | k + 1, s =>
    pySet (pySet (platformLoop c hy d k s) (c - (k + 1 : ℕ)) (hy - d * ((k : ℝ) + 1)))
      (c + (k + 1 : ℕ)) (hy + d * ((k : ℝ) + 1))

/-- Everything `_gen_uav_terrain` computes and records on `self`. -/
structure Terrain where
  /-- the raw draw `height = np_random.uniform(0, H/2, size=(CHUNKS+1,))` (line 63) -/
  heightDraws : List ℝ
  chunk_x : List ℝ
  smooth_y : List ℝ
  helipad_x1 : ℝ
  helipad_x2 : ℝ
  helipad_y : ℝ
  /-- the platform tilt angle (lines 80–82) -/
  angle : ℝ
  /-- `width_node = (CHUNKS // width_para - 1) // 2` (line 74), Python floor division -/
  width_node : ℤ
  rng : Rng

/-- Line 63: `height = self.np_random.uniform(0, H / 2, size=(CHUNKS + 1,))`,
together with the generator state after the draw. -/
noncomputable def heightRng (CHUNKS : ℕ) (r : Rng) : List ℝ × Rng :=
  Rng.uniformVec 0 ((H : ℝ) / 2) (CHUNKS + 1) r

/-- Line 65: `chunk_x = [W / (CHUNKS - 1) * i for i in range(CHUNKS)]`. -/
noncomputable def chunk_x_of (CHUNKS : ℕ) : List ℝ :=
  (List.range CHUNKS).map (fun (i : ℕ) => (W : ℝ) / ((CHUNKS : ℝ) - 1) * (i : ℝ))

/-- Lines 68–71: `smooth_y = [0.33 * (height[i-1] + height[i] + height[i+1])
for i in range(CHUNKS)]` (at `i = 0` Python's `height[-1]` wraps to the last
element). -/
noncomputable def smooth_y_of (height : List ℝ) (CHUNKS : ℕ) : List ℝ :=
  (List.range CHUNKS).map (fun (i : ℕ) =>
    0.33 * (pyGet height ((i : ℤ) - 1) + pyGet height (i : ℤ) + pyGet height ((i : ℤ) + 1)))

/-- Line 72: `self.np_random.uniform(H/2, H*3/5, size=1)[0]` (drawn after the
`CHUNKS + 1` height samples), with the generator state after it. -/
noncomputable def helipadRng (CHUNKS : ℕ) (r : Rng) : ℝ × Rng :=
  (heightRng CHUNKS r).2.uniform ((H : ℝ) / 2) ((H : ℝ) * 3 / 5)

/-- Line 74: `width_node = (CHUNKS // width_para - 1) // 2`, Python floor
division (`//` on possibly-negative ints is `Int.fdiv`). -/
def width_node_of (CHUNKS : ℕ) : ℤ :=
  Int.fdiv ((CHUNKS : ℤ) / (width_para : ℤ) - 1) 2

/-- Lines 80–82: `angle = 0; if not flat_platform: angle =
self.np_random.uniform(-math.pi/6, math.pi/6, size=1)[0]`; a flat platform
consumes no sample. -/
noncomputable def angleRng (flat_platform : Bool) (r : Rng) : ℝ × Rng :=
  if flat_platform then ((0 : ℝ), r) else r.uniform (-(Real.pi / 6)) (Real.pi / 6)

/-- `_gen_uav_terrain(self, terrain_node, flat_platform)` (lines 57–100).
`CHUNKS = terrain_node`.  Divergence note: for `CHUNKS = 1` Python would raise
`ZeroDivisionError` in `W / (CHUNKS - 1)`; the model's total division returns 0
there (no claim touches `CHUNKS = 1`). -/
noncomputable def gen_uav_terrain (terrain_node : ℕ) (flat_platform : Bool) (r0 : Rng) :
    Terrain :=
  let CHUNKS := terrain_node
  let height := (heightRng CHUNKS r0).1
  let chunk_x := chunk_x_of CHUNKS
  let smooth_y := smooth_y_of height CHUNKS
  -- line 72 also overwrites height[CHUNKS // 2] with the helipad draw; that cell
  -- is only ever read back as helipad_y (line 73)
  let helipad_y := (helipadRng CHUNKS r0).1
  let wn := width_node_of CHUNKS
  let smooth_y1 := pySet smooth_y (CHUNKS / 2 : ℕ) helipad_y
  let pa := angleRng flat_platform (helipadRng CHUNKS r0).2
  let angle := pa.1
  let diff_high := Real.tan angle * (W : ℝ) / ((CHUNKS : ℝ) - 1)
  { heightDraws := height
    chunk_x := chunk_x
    smooth_y := platformLoop (CHUNKS / 2 : ℕ) helipad_y diff_high wn.toNat smooth_y1
    helipad_x1 := pyGet chunk_x ((CHUNKS / 2 : ℕ) - wn)
    helipad_x2 := pyGet chunk_x ((CHUNKS / 2 : ℕ) + wn)
    helipad_y := helipad_y
    angle := angle
    width_node := wn
    rng := pa.2 }

/-- The ground edge fixtures: `CHUNKS - 1` segments joining consecutive
`(chunk_x[i], smooth_y[i])` pairs (lines 93–96). -/
def terrainEdges (t : Terrain) : List ((ℝ × ℝ) × (ℝ × ℝ)) :=
  (List.range (t.chunk_x.length - 1)).map (fun (i : ℕ) =>
    ((pyGet t.chunk_x (i : ℤ), pyGet t.smooth_y (i : ℤ)),
     (pyGet t.chunk_x ((i : ℤ) + 1), pyGet t.smooth_y ((i : ℤ) + 1))))

/-! ### Collision filter data (`_gen_uav_lander`, lines 102–163) -/

/-- The Box2D fixture filter data set on each created fixture. -/
structure CollisionFilter where
  categoryBits : ℕ
  maskBits : ℕ

/-- Lander fixture filter: `categoryBits=0x0010, maskBits=0x001` (lines 113–114). -/
def landerFilter : CollisionFilter := ⟨0x0010, 0x001⟩

/-- Leg fixture filter: `categoryBits=0x0020, maskBits=0x001` (lines 137–138). -/
def legFilter : CollisionFilter := ⟨0x0020, 0x001⟩

/-- The moon's edge fixtures (line 96) set no filter, so they carry Box2D's
`b2Filter` defaults: `categoryBits=0x0001, maskBits=0xFFFF`. -/
def groundFilter : CollisionFilter := ⟨0x0001, 0xFFFF⟩

/-- Box2D's `b2ShouldCollide`: two fixtures can produce contacts iff each one's
mask intersects the other's category. -/
def shouldCollide (a b : CollisionFilter) : Bool :=
  (a.maskBits &&& b.categoryBits != 0) && (b.maskBits &&& a.categoryBits != 0)

/-! ### Vehicle assembly (`_gen_uav_lander`, lines 102–163) -/

/-- One leg body plus its revolute joint to the lander, as created in the
`for i in [-1, +1]` loop (lines 129–163). -/
structure LegJoint where
  position : ℚ × ℚ
  angle : ℚ
  filter : CollisionFilter
  localAnchorA : ℚ × ℚ
  localAnchorB : ℚ × ℚ
  enableMotor : Bool
  enableLimit : Bool
  maxMotorTorque : ℚ
  motorSpeed : ℚ
  lowerAngle : ℚ
  upperAngle : ℚ

/-- The leg created for loop index `i ∈ {-1, +1}` (lines 129–163): position
`(VIEWPORT_W/SCALE/2 - i*LEG_AWAY/SCALE, initial_y)` with
`initial_y = VIEWPORT_H/SCALE`, body angle `i * 0.05`, joint anchored at
`(0, 0)` on the lander and `(i*LEG_AWAY/SCALE, LEG_DOWN/SCALE)` on the leg,
motor enabled at torque `LEG_SPRING_TORQUE` and speed `+0.3*i`, limit enabled
with range `[+0.9-0.5, +0.9]` for `i = -1` and `[-0.9, -0.9+0.5]` for
`i = +1`. -/
def mkLeg (i : ℚ) : LegJoint :=
  { position := (VIEWPORT_W / SCALE / 2 - i * LEG_AWAY / SCALE, VIEWPORT_H / SCALE)
    angle := i * 0.05
    filter := legFilter
    localAnchorA := (0, 0)
    localAnchorB := (i * LEG_AWAY / SCALE, LEG_DOWN / SCALE)
    enableMotor := true
    enableLimit := true
    maxMotorTorque := LEG_SPRING_TORQUE
    motorSpeed := 0.3 * i
    lowerAngle := if i = -1 then 0.9 - 0.5 else -0.9
    upperAngle := if i = -1 then 0.9 else -0.9 + 0.5 }

/-- The two legs in creation order, `for i in [-1, +1]` (line 129). -/
def legs : List LegJoint := [mkLeg (-1), mkLeg 1]

/-! ### Step reward and termination (commented `step`, lines 189–345; the
class inherits the identical `LunarLander.step` of the base module) -/

/-- Lines 318–324: the potential-based shaping of the 8-element state. -/
noncomputable def shaping (st : Fin 8 → ℝ) : ℝ :=
  -100 * Real.sqrt (st 0 * st 0 + st 1 * st 1)
    - 100 * Real.sqrt (st 2 * st 2 + st 3 * st 3)
    - 100 * |st 4|
    + 10 * st 6
    + 10 * st 7

/-- Lines 317–333: `reward = 0; if prev_shaping is not None: reward = shaping -
prev_shaping; prev_shaping = shaping; reward -= m_power*0.30; reward -=
s_power*0.03`.  Returns the pre-termination reward and the updated
`prev_shaping`. -/
noncomputable def shapedReward (prev_shaping : Option ℝ) (st : Fin 8 → ℝ)
    (m_power s_power : ℝ) : ℝ × ℝ :=
  let sh := shaping st
  let reward : ℝ := match prev_shaping with
    | none => 0
    | some p => sh - p
  (reward - m_power * 0.30 - s_power * 0.03, sh)

open Classical in
/-- Lines 335–341: `terminated = False; if game_over or abs(state[0]) >= 1.0:
terminated = True; reward = -100; if not lander.awake: terminated = True;
reward = +100`.  Takes the game-over flag, the body's awake flag, `state[0]`
and the pre-termination reward; returns `(terminated, reward)`. -/
noncomputable def termination (game_over awake : Bool) (state0 reward : ℝ) : Bool × ℝ :=
  let a : Bool × ℝ :=
    if game_over = true ∨ (1 : ℝ) ≤ |state0| then (true, -100) else (false, reward)
  if awake = false then (true, 100) else a

/-! ### Reset (`reset`, lines 165–185) -/

/-- Everything `reset` derives from the seeded generator before handing the
world to the physics engine: regenerated terrain (`terrain_node=90,
flat_platform=False`, line 178), the lander spawn (lines 103–105), the random
initial force (lines 120–126), and the dispersion samples the zero-action
step draws (commented line 234).  `game_over` and `prev_shaping` are reset to
`False`/`None` (lines 175–176). -/
structure EpisodeInit where
  terrain : Terrain
  landerPosition : ℝ × ℝ
  landerAngle : ℝ
  initialForce : ℝ × ℝ
  legBodies : List LegJoint
  dispersion : ℝ × ℝ
  game_over : Bool
  prev_shaping : Option ℝ

/-- The deterministic part of `reset` followed by the zero-action `step`'s
random draws: every random quantity of the episode setup as a function of the
seeded generator alone. -/
noncomputable def resetEpisode (r : Rng) : EpisodeInit :=
  let t := gen_uav_terrain 90 false r
  let f1 := t.rng.uniform (-(INITIAL_RANDOM : ℝ)) (INITIAL_RANDOM : ℝ)
  let f2 := f1.2.uniform (-(INITIAL_RANDOM : ℝ)) (INITIAL_RANDOM : ℝ)
  let d1 := f2.2.uniform (-1) 1
  let d2 := d1.2.uniform (-1) 1
  { terrain := t
    landerPosition := ((VIEWPORT_W : ℝ) / (SCALE : ℝ) / 2, (VIEWPORT_H : ℝ) / (SCALE : ℝ))
    landerAngle := 0
    initialForce := (f1.1, f2.1)
    legBodies := legs
    dispersion := (d1.1 / (SCALE : ℝ), d2.1 / (SCALE : ℝ))
    game_over := false
    prev_shaping := none }

/-- The observation returned by `reset` is the zero-action step's observation:
the physics engine advances the freshly assembled world one timestep and the
state vector is read back from it.  The engine is an external deterministic
collaborator, modelled as a function of the episode setup. -/
noncomputable def resetObservation (phys : EpisodeInit → Fin 8 → ℝ) (r : Rng) : Fin 8 → ℝ :=
  phys (resetEpisode r)

/-! ### Basic lemmas about the embedding -/

lemma pyGet_ofNat (xs : List ℝ) (i : ℕ) : pyGet xs (i : ℤ) = xs.getD i 0 := by
  have h : ¬ ((i : ℤ) < 0) := by omega
  simp [pyGet, h, List.getD_eq_getElem?_getD]

lemma pySet_ofNat (xs : List ℝ) (i : ℕ) (v : ℝ) : pySet xs (i : ℤ) v = xs.set i v := by
  have h : ¬ ((i : ℤ) < 0) := by omega
  simp [pySet, h]

lemma pySet_natSub (xs : List ℝ) (c i : ℕ) (h : i ≤ c) (v : ℝ) :
    pySet xs ((c : ℤ) - (i : ℤ)) v = xs.set (c - i) v := by
  have hcast : (c : ℤ) - (i : ℤ) = ((c - i : ℕ) : ℤ) := by omega
  rw [hcast, pySet_ofNat]

lemma pySet_natAdd (xs : List ℝ) (c i : ℕ) (v : ℝ) :
    pySet xs ((c : ℤ) + (i : ℤ)) v = xs.set (c + i) v := by
  have hcast : (c : ℤ) + (i : ℤ) = ((c + i : ℕ) : ℤ) := by omega
  rw [hcast, pySet_ofNat]

lemma length_pySet (xs : List ℝ) (i : ℤ) (v : ℝ) : (pySet xs i v).length = xs.length := by
  simp [pySet]

lemma getD_set_self (xs : List ℝ) (n : ℕ) (h : n < xs.length) (v : ℝ) :
    (xs.set n v).getD n 0 = v := by
  simp [List.getD_eq_getElem?_getD, List.getElem?_set_self', List.getElem?_eq_getElem h]

lemma getD_set_ne (xs : List ℝ) (m n : ℕ) (h : m ≠ n) (v : ℝ) :
    (xs.set m v).getD n 0 = xs.getD n 0 := by
  simp [List.getD_eq_getElem?_getD, List.getElem?_set_ne h]

lemma getD_range_map (f : ℕ → ℝ) (n i : ℕ) (h : i < n) :
    ((List.range n).map f).getD i 0 = f i := by
  simp [List.getD_eq_getElem?_getD, List.getElem?_map, List.getElem?_range h]

lemma Rng.uniform_fst (r : Rng) (lo hi : ℝ) :
    (r.uniform lo hi).1 = lo + (hi - lo) * r.draws r.idx := rfl

lemma Rng.wellFormed_uniform (r : Rng) (lo hi : ℝ) (h : r.wellFormed) :
    (r.uniform lo hi).2.wellFormed := h

lemma Rng.uniform_mem (r : Rng) (lo hi : ℝ) (hr : r.wellFormed) (hle : lo ≤ hi) :
    lo ≤ (r.uniform lo hi).1 ∧ (r.uniform lo hi).1 ≤ hi := by
  rw [Rng.uniform_fst]
  obtain ⟨h0, h1⟩ := hr r.idx
  constructor
  · nlinarith
  · nlinarith

lemma Rng.uniformVec_length (lo hi : ℝ) (n : ℕ) (r : Rng) :
    (Rng.uniformVec lo hi n r).1.length = n := by
  induction n generalizing r with
  | zero => rfl
  | succ k ih => simp [Rng.uniformVec, ih]

lemma Rng.wellFormed_uniformVec (lo hi : ℝ) (n : ℕ) (r : Rng) (h : r.wellFormed) :
    (Rng.uniformVec lo hi n r).2.wellFormed := by
  induction n generalizing r with
  | zero => exact h
  | succ k ih => exact ih _ (r.wellFormed_uniform lo hi h)

lemma Rng.uniformVec_mem (lo hi : ℝ) (n : ℕ) (r : Rng) (hr : r.wellFormed)
    (hle : lo ≤ hi) : ∀ x ∈ (Rng.uniformVec lo hi n r).1, lo ≤ x ∧ x ≤ hi := by
  induction n generalizing r with
  | zero => intro x hx; cases hx
  | succ k ih =>
    intro x hx
    rcases List.mem_cons.mp hx with h | h
    · subst h; exact r.uniform_mem lo hi hr hle
    · exact ih _ (r.wellFormed_uniform lo hi hr) x h

lemma platformLoop_length (c : ℤ) (hy d : ℝ) (w : ℕ) (s : List ℝ) :
    (platformLoop c hy d w s).length = s.length := by
  induction w with
  | zero => rfl
  | succ k ih => simp [platformLoop, length_pySet, ih]

/-- Indices the platform loop never writes keep their incoming value. -/
lemma platformLoop_getD_untouched (c w : ℕ) (hy d : ℝ) (s : List ℝ)
    (hw : w ≤ c) (j : ℕ)
    (hj : ∀ i, 1 ≤ i → i ≤ w → j ≠ c - i ∧ j ≠ c + i) :
    (platformLoop (c : ℤ) hy d w s).getD j 0 = s.getD j 0 := by
  induction w with
  | zero => rfl
  | succ k ih =>
    have hk1 : k + 1 ≤ c := hw
    have hne := hj (k + 1) (by omega) (by omega)
    rw [platformLoop,
      pySet_natSub _ c (k + 1) hk1 _,
      pySet_natAdd _ c (k + 1) _,
      getD_set_ne _ _ _ (by omega),
      getD_set_ne _ _ _ (by omega)]
    exact ih (by omega) (fun i h1 h2 => hj i h1 (by omega))

/-- Reads on the low side of the platform after the loop (line 86). -/
lemma platformLoop_getD_lo (c w : ℕ) (hy d : ℝ) (s : List ℝ)
    (hw : w ≤ c) (hlen : c + w < s.length) (i : ℕ) (h1 : 1 ≤ i) (h2 : i ≤ w) :
    (platformLoop (c : ℤ) hy d w s).getD (c - i) 0 = hy - d * i := by
  induction w with
  | zero => omega
  | succ k ih =>
    have hk1 : k + 1 ≤ c := hw
    rw [platformLoop,
      pySet_natSub _ c (k + 1) hk1 _,
      pySet_natAdd _ c (k + 1) _,
      getD_set_ne _ _ _ (by omega)]
    rcases Nat.lt_or_ge i (k + 1) with hik | hik
    · rw [getD_set_ne _ _ _ (by omega)]
      exact ih (by omega) (by omega) (by omega)
    · have hieq : i = k + 1 := by omega
      subst hieq
      rw [getD_set_self _ _ (by rw [platformLoop_length]; omega)]
      push_cast
      ring

/-- Reads on the high side of the platform after the loop (line 87). -/
lemma platformLoop_getD_hi (c w : ℕ) (hy d : ℝ) (s : List ℝ)
    (hw : w ≤ c) (hlen : c + w < s.length) (i : ℕ) (h1 : 1 ≤ i) (h2 : i ≤ w) :
    (platformLoop (c : ℤ) hy d w s).getD (c + i) 0 = hy + d * i := by
  induction w with
  | zero => omega
  | succ k ih =>
    have hk1 : k + 1 ≤ c := hw
    rw [platformLoop,
      pySet_natSub _ c (k + 1) hk1 _,
      pySet_natAdd _ c (k + 1) _]
    rcases Nat.lt_or_ge i (k + 1) with hik | hik
    · rw [getD_set_ne _ _ _ (by omega), getD_set_ne _ _ _ (by omega)]
      exact ih (by omega) (by omega) (by omega)
    · have hieq : i = k + 1 := by omega
      subst hieq
      rw [getD_set_self _ _ (by rw [List.length_set, platformLoop_length]; omega)]
      push_cast
      ring

lemma fdiv_natCast (a b : ℕ) : Int.fdiv (a : ℤ) (b : ℤ) = ((a / b : ℕ) : ℤ) := by
  cases a with
  | zero => simp [Int.fdiv]
  | succ n => rfl

/-- For `CHUNKS ≥ 6` the Python floor divisions agree with natural division. -/
lemma width_node_of_eq (N : ℕ) (h : 6 ≤ N) :
    width_node_of N = (((N / 6 - 1) / 2 : ℕ) : ℤ) := by
  unfold width_node_of width_para
  have hc : (((6 : ℕ) : ℤ)) = (6 : ℤ) := by norm_cast
  have hq : ((N : ℤ)) / (6 : ℤ) = ((N / 6 : ℕ) : ℤ) := by omega
  have h1 : 1 ≤ N / 6 := by omega
  have hsub : ((N / 6 : ℕ) : ℤ) - 1 = ((N / 6 - 1 : ℕ) : ℤ) := by omega
  rw [hc, hq, hsub, show (2 : ℤ) = ((2 : ℕ) : ℤ) from rfl, fdiv_natCast]

/-- For `CHUNKS < 6` Python computes `(0 - 1) // 2 = -1`. -/
lemma width_node_of_small (N : ℕ) (h : N < 6) : width_node_of N = -1 := by
  unfold width_node_of width_para
  have hc : (((6 : ℕ) : ℤ)) = (6 : ℤ) := by norm_cast
  have hq : ((N : ℤ)) / (6 : ℤ) = 0 := by omega
  rw [hc, hq]
  decide

lemma W_real : (W : ℝ) = 20 := by norm_num [W, VIEWPORT_W, SCALE]

lemma H_real : (H : ℝ) = 40 / 3 := by norm_num [H, VIEWPORT_H, SCALE]

lemma chunk_x_of_length (N : ℕ) : (chunk_x_of N).length = N := by
  simp [chunk_x_of]

lemma chunk_x_of_getD (N i : ℕ) (h : i < N) :
    (chunk_x_of N).getD i 0 = (W : ℝ) / ((N : ℝ) - 1) * i := by
  unfold chunk_x_of
  exact getD_range_map _ _ _ h

lemma smooth_y_of_length (height : List ℝ) (N : ℕ) : (smooth_y_of height N).length = N := by
  simp [smooth_y_of]

/-! ### Projections of `gen_uav_terrain` -/

lemma gen_heightDraws (N : ℕ) (flat : Bool) (r : Rng) :
    (gen_uav_terrain N flat r).heightDraws = (heightRng N r).1 := rfl

lemma gen_chunk_x (N : ℕ) (flat : Bool) (r : Rng) :
    (gen_uav_terrain N flat r).chunk_x = chunk_x_of N := rfl

lemma gen_helipad_y (N : ℕ) (flat : Bool) (r : Rng) :
    (gen_uav_terrain N flat r).helipad_y = (helipadRng N r).1 := rfl

lemma gen_width_node (N : ℕ) (flat : Bool) (r : Rng) :
    (gen_uav_terrain N flat r).width_node = width_node_of N := rfl

lemma gen_angle (N : ℕ) (flat : Bool) (r : Rng) :
    (gen_uav_terrain N flat r).angle = (angleRng flat (helipadRng N r).2).1 := rfl

lemma gen_helipad_x1 (N : ℕ) (flat : Bool) (r : Rng) :
    (gen_uav_terrain N flat r).helipad_x1 =
      pyGet (chunk_x_of N) ((N / 2 : ℕ) - width_node_of N) := rfl

lemma gen_helipad_x2 (N : ℕ) (flat : Bool) (r : Rng) :
    (gen_uav_terrain N flat r).helipad_x2 =
      pyGet (chunk_x_of N) ((N / 2 : ℕ) + width_node_of N) := rfl

lemma gen_smooth_y (N : ℕ) (flat : Bool) (r : Rng) :
    (gen_uav_terrain N flat r).smooth_y =
      platformLoop ((N / 2 : ℕ) : ℤ) ((helipadRng N r).1)
        (Real.tan ((angleRng flat (helipadRng N r).2).1) * (W : ℝ) / ((N : ℝ) - 1))
        (width_node_of N).toNat
        (pySet (smooth_y_of (heightRng N r).1 N) ((N / 2 : ℕ) : ℤ) ((helipadRng N r).1)) := rfl

/-- A concrete generator stream: every unit sample is `1/2`. -/
noncomputable def rHalf : Rng := ⟨fun _ => 1 / 2, 0⟩

lemma rHalf_wellFormed : rHalf.wellFormed := by
  intro n
  constructor <;> norm_num [rHalf]

/-- The helipad elevation draw stays in `[H/2, 3H/5]` for any well-formed
stream. -/
lemma helipad_mem (N : ℕ) (r : Rng) (hr : r.wellFormed) :
    (H : ℝ) / 2 ≤ (helipadRng N r).1 ∧ (helipadRng N r).1 ≤ (H : ℝ) * 3 / 5 := by
  have hwf : (heightRng N r).2.wellFormed := Rng.wellFormed_uniformVec 0 ((H : ℝ) / 2) (N + 1) r hr
  have hle : (H : ℝ) / 2 ≤ (H : ℝ) * 3 / 5 := by rw [H_real]; norm_num
  exact Rng.uniform_mem _ _ _ hwf hle

/-- The platform loop leaves the overridden center node untouched: the final
smoothed height at `CHUNKS // 2` is the helipad elevation (line 78). -/
lemma gen_smooth_y_center (N : ℕ) (flat : Bool) (r : Rng) (hN : 1 ≤ N) :
    (gen_uav_terrain N flat r).smooth_y.getD (N / 2) 0 =
      (gen_uav_terrain N flat r).helipad_y := by
  rw [gen_smooth_y, gen_helipad_y, pySet_ofNat]
  rcases Nat.lt_or_ge N 6 with h6 | h6
  · rw [width_node_of_small N h6, show ((-1 : ℤ)).toNat = 0 from rfl]
    simp only [platformLoop]
    exact getD_set_self _ _ (by rw [smooth_y_of_length]; omega) _
  · have htn : (width_node_of N).toNat = (N / 6 - 1) / 2 := by
      rw [width_node_of_eq N h6]; omega
    rw [htn, platformLoop_getD_untouched (N / 2) ((N / 6 - 1) / 2) _ _ _ (by omega) (N / 2)
      (fun i hi1 hi2 => ⟨by omega, by omega⟩)]
    exact getD_set_self _ _ (by rw [smooth_y_of_length]; omega) _

/-! ## Claims -/

/-- C7: the two leg bodies created by `_gen_uav_lander` are mirror-symmetric in
attachment offset about the lander's vertical axis; each leg's revolute joint
has the motor enabled with the same bounded maximum torque and the same low
target speed magnitude with opposite sign per leg, and an enabled angular limit
where one leg's range is biased toward positive angles, the other's toward
negative angles, and both ranges span the same fixed arc. -/
theorem C7_leg_symmetry :
    (mkLeg (-1)).localAnchorB.1 = -((mkLeg 1).localAnchorB.1) ∧
    (mkLeg (-1)).localAnchorB.2 = (mkLeg 1).localAnchorB.2 ∧
    (mkLeg (-1)).localAnchorA = (0, 0) ∧ (mkLeg 1).localAnchorA = (0, 0) ∧
    (mkLeg (-1)).position.1 - VIEWPORT_W / SCALE / 2 =
      -((mkLeg 1).position.1 - VIEWPORT_W / SCALE / 2) ∧
    (mkLeg (-1)).position.2 = (mkLeg 1).position.2 ∧
    (mkLeg (-1)).enableMotor = true ∧ (mkLeg 1).enableMotor = true ∧
    (mkLeg (-1)).maxMotorTorque = (mkLeg 1).maxMotorTorque ∧
    0 < (mkLeg (-1)).maxMotorTorque ∧
    (mkLeg (-1)).motorSpeed = -((mkLeg 1).motorSpeed) ∧
    |(mkLeg 1).motorSpeed| = 0.3 ∧
    (mkLeg (-1)).enableLimit = true ∧ (mkLeg 1).enableLimit = true ∧
    0 < (mkLeg (-1)).lowerAngle ∧ (mkLeg 1).upperAngle < 0 ∧
    (mkLeg (-1)).upperAngle - (mkLeg (-1)).lowerAngle =
      (mkLeg 1).upperAngle - (mkLeg 1).lowerAngle := by
  norm_num [mkLeg, VIEWPORT_W, VIEWPORT_H, SCALE, LEG_AWAY, LEG_DOWN, LEG_SPRING_TORQUE]

/-- C10: the lander fixture and both leg fixtures carry `maskBits 0x001`, the
lander `categoryBits 0x0010` and the legs `categoryBits 0x0020`, so under
Box2D's filter rule the lander and its legs can never collide with one another
(nor the legs with each other), while lander–ground contact remains enabled —
the game-over flag can only ever come from lander–terrain contact. -/
theorem C10_collision_filters :
    landerFilter.maskBits = 0x001 ∧ legFilter.maskBits = 0x001 ∧
    landerFilter.categoryBits = 0x0010 ∧ legFilter.categoryBits = 0x0020 ∧
    shouldCollide landerFilter legFilter = false ∧
    shouldCollide legFilter landerFilter = false ∧
    shouldCollide legFilter legFilter = false ∧
    shouldCollide landerFilter landerFilter = false ∧
    shouldCollide landerFilter groundFilter = true ∧
    shouldCollide legFilter groundFilter = true := by
  decide

/-- C2: in every step, if the game-over flag is set or `|state[0]| ≥ 1.0` the
step terminates with reward exactly `-100`; if the lander body is not awake it
terminates with reward exactly `+100`, the `+100` taking precedence when both
conditions hold; otherwise `terminated` is false and the shaping-based reward
is returned unchanged. -/
theorem C2_termination_cases (game_over awake : Bool) (s0 r : ℝ) :
    (awake = false → termination game_over awake s0 r = (true, 100)) ∧
    (awake = true → (game_over = true ∨ (1 : ℝ) ≤ |s0|) →
      termination game_over awake s0 r = (true, -100)) ∧
    (awake = true → game_over = false → |s0| < 1 →
      termination game_over awake s0 r = (false, r)) := by
  refine ⟨?_, ?_, ?_⟩
  · intro h
    subst h
    simp [termination]
  · intro ha hc
    subst ha
    simp only [termination]
    rw [if_pos hc, if_neg (by simp)]
  · intro ha hg hs
    subst ha
    subst hg
    simp only [termination]
    rw [if_neg (by simp), if_neg (fun hor => hor.elim (fun hb => by simp at hb)
      (fun hle => absurd hle (not_le.mpr hs)))]

/-- C2 witness: with the body asleep (and the game-over flag also set, so both
conditions hold) the step returns `terminated = true` with reward `+100`. -/
theorem C2_termination_cases_witness :
    (false : Bool) = false ∧ termination true false 0 5 = (true, 100) :=
  ⟨rfl, (C2_termination_cases true false 0 5).1 rfl⟩

/-- C3: with no shaping history (`prev_shaping = None`, as set by `reset`) the
pre-termination reward is exactly `-(0.30*m_power + 0.03*s_power)` regardless
of the state; with history `p` it is `(shaping - p) - 0.30*m_power -
0.03*s_power`; and `prev_shaping` is updated to the current shaping in both
cases. -/
theorem C3_shaped_reward (st : Fin 8 → ℝ) (m_power s_power p : ℝ) :
    shapedReward none st m_power s_power =
      (-(0.30 * m_power + 0.03 * s_power), shaping st) ∧
    shapedReward (some p) st m_power s_power =
      (shaping st - p - 0.30 * m_power - 0.03 * s_power, shaping st) := by
  constructor
  · simp only [shapedReward, Prod.mk.injEq]
    exact ⟨by ring, trivial⟩
  · simp only [shapedReward, Prod.mk.injEq]
    exact ⟨by ring, trivial⟩

/-- C9: for a fixed seed, two runs of `reset(seed)` followed by one zero-action
step produce identical terrain, platform bounds, vehicle placement, initial
random force and initial observation: every random quantity is a function of
the seeded per-episode generator alone, and the physics engine is a
deterministic collaborator of the assembled world. -/
theorem C9_reset_determinism (phys : EpisodeInit → Fin 8 → ℝ) (r₁ r₂ : Rng)
    (h : r₁ = r₂) :
    resetEpisode r₁ = resetEpisode r₂ ∧
    resetObservation phys r₁ = resetObservation phys r₂ := by
  subst h
  exact ⟨rfl, rfl⟩

/-- C9 witness: the determinism theorem applied at the concrete all-halves
stream and the constant-zero physics readback. -/
theorem C9_reset_determinism_witness :
    rHalf = rHalf ∧
    (resetEpisode rHalf = resetEpisode rHalf ∧
      resetObservation (fun _ _ => 0) rHalf = resetObservation (fun _ _ => 0) rHalf) :=
  ⟨rfl, C9_reset_determinism (fun _ _ => 0) rHalf rHalf rfl⟩

/-- C6's property at node count `N`: the helipad elevation lies in
`[H/2, 3H/5]` and overrides the smoothed value at the center node. -/
def helipadSpec (N : ℕ) (flat : Bool) (r : Rng) : Prop :=
  (H : ℝ) / 2 ≤ (gen_uav_terrain N flat r).helipad_y ∧
  (gen_uav_terrain N flat r).helipad_y ≤ (H : ℝ) * 3 / 5 ∧
  (gen_uav_terrain N flat r).smooth_y.getD (N / 2) 0 = (gen_uav_terrain N flat r).helipad_y

/-- C6: for every random draw, the platform elevation recorded as `helipad_y`
is drawn uniformly from `[H/2, 3H/5]` (modelled: one fresh sample scaled to
that interval, independent of the height samples that produced the smoothed
baseline) and it overrides the smoothed value at the center node; hence
`helipad_y` always lies in `[H/2, 3H/5]`. -/
theorem C6_helipad_elevation (N : ℕ) (flat : Bool) (r : Rng) (hr : r.wellFormed)
    (hN : 1 ≤ N) : helipadSpec N flat r := by
  obtain ⟨hlo, hhi⟩ := helipad_mem N r hr
  exact ⟨hlo, hhi, gen_smooth_y_center N flat r hN⟩

/-- C6 witness: the elevation bounds and center override at `terrain_node=90`
on the all-halves stream. -/
theorem C6_helipad_elevation_witness :
    rHalf.wellFormed ∧ 1 ≤ 90 ∧ helipadSpec 90 false rHalf :=
  ⟨rHalf_wellFormed, by norm_num,
    C6_helipad_elevation 90 false rHalf rHalf_wellFormed (by norm_num)⟩

/-- C8's property at node count `N`: the horizontal node coordinates follow
`chunk_x[i] = (W/(N-1))·i`, are strictly increasing and evenly spaced, and
span `0` to `W`. -/
def chunkXSpec (N : ℕ) (flat : Bool) (r : Rng) : Prop :=
  (gen_uav_terrain N flat r).chunk_x.length = N ∧
  (∀ i, i < N →
    (gen_uav_terrain N flat r).chunk_x.getD i 0 = (W : ℝ) / ((N : ℝ) - 1) * i) ∧
  (∀ i j, i < j → j < N →
    (gen_uav_terrain N flat r).chunk_x.getD i 0 <
      (gen_uav_terrain N flat r).chunk_x.getD j 0) ∧
  (∀ i, i + 1 < N →
    (gen_uav_terrain N flat r).chunk_x.getD (i + 1) 0 -
      (gen_uav_terrain N flat r).chunk_x.getD i 0 = (W : ℝ) / ((N : ℝ) - 1)) ∧
  (gen_uav_terrain N flat r).chunk_x.getD 0 0 = 0 ∧
  (gen_uav_terrain N flat r).chunk_x.getD (N - 1) 0 = (W : ℝ)

/-- C8: for every node count `N ≥ 2` the horizontal node coordinates are
strictly increasing and evenly spaced, with `chunk_x[i] = (W/(N-1))·i`,
spanning the full horizontal viewport width from `0` to `W`. -/
theorem C8_chunk_x_spacing (N : ℕ) (flat : Bool) (r : Rng) (hN : 2 ≤ N) :
    chunkXSpec N flat r := by
  have hN1 : (1 : ℝ) ≤ (N : ℝ) - 1 := by
    have : (2 : ℝ) ≤ (N : ℝ) := by exact_mod_cast hN
    linarith
  have hq : 0 < (W : ℝ) / ((N : ℝ) - 1) := by
    apply div_pos
    · rw [W_real]; norm_num
    · linarith
  refine ⟨?_, ?_, ?_, ?_, ?_, ?_⟩
  · rw [gen_chunk_x]; exact chunk_x_of_length N
  · intro i hi
    rw [gen_chunk_x]; exact chunk_x_of_getD N i hi
  · intro i j hij hj
    rw [gen_chunk_x, chunk_x_of_getD N i (by omega), chunk_x_of_getD N j hj]
    have : (i : ℝ) < (j : ℝ) := by exact_mod_cast hij
    nlinarith
  · intro i hi
    rw [gen_chunk_x, chunk_x_of_getD N (i + 1) hi, chunk_x_of_getD N i (by omega)]
    push_cast
    ring
  · rw [gen_chunk_x, chunk_x_of_getD N 0 (by omega)]
    norm_num
  · rw [gen_chunk_x, chunk_x_of_getD N (N - 1) (by omega)]
    have hc : ((N - 1 : ℕ) : ℝ) = (N : ℝ) - 1 := by
      have : 1 ≤ N := by omega
      push_cast [this]
      ring
    rw [hc, div_mul_cancel₀]
    linarith

/-- C8 witness: the spacing property at `N = 30` on the all-halves stream. -/
theorem C8_chunk_x_spacing_witness : 2 ≤ 30 ∧ chunkXSpec 30 true rHalf :=
  ⟨by norm_num, C8_chunk_x_spacing 30 true rHalf (by norm_num)⟩

/-- C4 counterexample: at `terrain_node = 30` the generator draws `CHUNKS + 1
= 31` height samples, not `N = 30` (line 63, `size=(CHUNKS + 1,)`). -/
theorem C4_counterexample :
    (gen_uav_terrain 30 true rHalf).heightDraws.length ≠ 30 := by
  rw [gen_heightDraws]
  have h := Rng.uniformVec_length 0 ((H : ℝ) / 2) 31 rHalf
  have h31 : (heightRng 30 rHalf).1.length = 31 := h
  omega

/-- The amended C4 property at node count `N`: `N + 1` samples, each in
`[0, H/2]`. -/
def heightDrawSpec (N : ℕ) (flat : Bool) (r : Rng) : Prop :=
  (gen_uav_terrain N flat r).heightDraws.length = N + 1 ∧
  ∀ x ∈ (gen_uav_terrain N flat r).heightDraws, 0 ≤ x ∧ x ≤ (H : ℝ) / 2

/-- C4 (amended): for every node count `N`, `_gen_uav_terrain` draws exactly
`N + 1` independent uniform height samples, each in `[0, H/2]` where `H` is
the vertical viewport extent in simulation units. -/
theorem C4_height_draws (N : ℕ) (flat : Bool) (r : Rng) (hr : r.wellFormed) :
    heightDrawSpec N flat r := by
  constructor
  · rw [gen_heightDraws]
    exact Rng.uniformVec_length 0 ((H : ℝ) / 2) (N + 1) r
  · rw [gen_heightDraws]
    have hle : (0 : ℝ) ≤ (H : ℝ) / 2 := by rw [H_real]; norm_num
    exact Rng.uniformVec_mem 0 ((H : ℝ) / 2) (N + 1) r hr hle

/-- C4 witness: the amended count and bounds at `terrain_node = 30` on the
all-halves stream. -/
theorem C4_height_draws_witness : rHalf.wellFormed ∧ heightDrawSpec 30 true rHalf :=
  ⟨rHalf_wellFormed, C4_height_draws 30 true rHalf rHalf_wellFormed⟩

/-- C5: at the degenerate node count `terrain_node = 6` (division factor 6
gives platform half-width 0) terrain generation performs no validation and
does not fail: it completes, producing a platform degenerated to the single
center point (`helipad_x1 = helipad_x2`) and a full `CHUNKS`-node profile. -/
theorem C5_no_fail_fast :
    (gen_uav_terrain 6 true rHalf).width_node = 0 ∧
    (gen_uav_terrain 6 true rHalf).helipad_x1 = (gen_uav_terrain 6 true rHalf).helipad_x2 ∧
    (gen_uav_terrain 6 true rHalf).smooth_y.length = 6 := by
  refine ⟨?_, ?_, ?_⟩
  · rw [gen_width_node, width_node_of_eq 6 (by norm_num)]
    norm_num
  · rw [gen_helipad_x1, gen_helipad_x2, width_node_of_eq 6 (by norm_num)]
    norm_num
  · rw [gen_smooth_y, platformLoop_length, length_pySet, smooth_y_of_length]

/-- C1's property at node count `N`: the platform heights form an exact
straight line of per-node delta `d = tan(angle)·(W/(N-1))` around the platform
elevation (`center−i ↦ elevation − i·d`, `center+i ↦ elevation + i·d`); flat
platforms have angle 0 and every platform-range node exactly at the elevation;
non-flat platforms draw the angle from `[-π/6, π/6]`. -/
def platformLineSpec (N : ℕ) (flat : Bool) (r : Rng) : Prop :=
  let t := gen_uav_terrain N flat r
  let d := Real.tan t.angle * ((W : ℝ) / ((N : ℝ) - 1))
  (∀ i : ℕ, 1 ≤ i → (i : ℤ) ≤ t.width_node →
    t.smooth_y.getD (N / 2 - i) 0 = t.helipad_y - (i : ℝ) * d ∧
    t.smooth_y.getD (N / 2 + i) 0 = t.helipad_y + (i : ℝ) * d) ∧
  (flat = true → t.angle = 0 ∧
    ∀ i : ℕ, (i : ℤ) ≤ t.width_node →
      t.smooth_y.getD (N / 2 - i) 0 = t.helipad_y ∧
      t.smooth_y.getD (N / 2 + i) 0 = t.helipad_y) ∧
  (flat = false → -(Real.pi / 6) ≤ t.angle ∧ t.angle ≤ Real.pi / 6)

/-- C1: for every node count giving a positive platform half-width and every
random draw, the platform heights produced by `_gen_uav_terrain` lie on an
exact straight line with per-node delta `tan(angle)·(W/(N-1))`; flat platforms
have angle 0 and constant platform heights, non-flat platforms draw the angle
uniformly from `[-π/6, π/6]`. -/
theorem C1_platform_line (N : ℕ) (flat : Bool) (r : Rng) (hr : r.wellFormed)
    (hw : 1 ≤ (gen_uav_terrain N flat r).width_node) : platformLineSpec N flat r := by
  have hw' : 1 ≤ width_node_of N := by rw [gen_width_node] at hw; exact hw
  have h6 : 6 ≤ N := by
    by_contra hcon
    rw [width_node_of_small N (by omega)] at hw'
    omega
  have hwn : width_node_of N = (((N / 6 - 1) / 2 : ℕ) : ℤ) := width_node_of_eq N h6
  set w : ℕ := (N / 6 - 1) / 2 with hwdef
  have hw1 : 1 ≤ w := by rw [hwn] at hw'; exact_mod_cast hw'
  have hcw : w ≤ N / 2 := by omega
  have hlen : N / 2 + w < N := by omega
  have htn : (width_node_of N).toNat = w := by rw [hwn]; omega
  have hmain : ∀ i : ℕ, 1 ≤ i → i ≤ w →
      (gen_uav_terrain N flat r).smooth_y.getD (N / 2 - i) 0 =
        (gen_uav_terrain N flat r).helipad_y -
          Real.tan ((gen_uav_terrain N flat r).angle) * (W : ℝ) / ((N : ℝ) - 1) * (i : ℝ) ∧
      (gen_uav_terrain N flat r).smooth_y.getD (N / 2 + i) 0 =
        (gen_uav_terrain N flat r).helipad_y +
          Real.tan ((gen_uav_terrain N flat r).angle) * (W : ℝ) / ((N : ℝ) - 1) * (i : ℝ) := by
    intro i h1 h2
    rw [gen_smooth_y, gen_helipad_y, gen_angle, htn]
    constructor
    · exact platformLoop_getD_lo (N / 2) w _ _ _ hcw
        (by rw [length_pySet, smooth_y_of_length]; exact hlen) i h1 h2
    · exact platformLoop_getD_hi (N / 2) w _ _ _ hcw
        (by rw [length_pySet, smooth_y_of_length]; exact hlen) i h1 h2
  simp only [platformLineSpec]
  refine ⟨?_, ?_, ?_⟩
  · intro i h1 h2
    have h2' : i ≤ w := by
      rw [gen_width_node, hwn] at h2
      exact_mod_cast h2
    obtain ⟨hlo, hhi⟩ := hmain i h1 h2'
    constructor
    · rw [hlo]; ring
    · rw [hhi]; ring
  · intro hf
    subst hf
    have hang : (gen_uav_terrain N true r).angle = 0 := by
      rw [gen_angle]
      simp [angleRng]
    refine ⟨hang, ?_⟩
    intro i hi
    rcases Nat.eq_zero_or_pos i with h0 | h1
    · subst h0
      simp only [Nat.sub_zero, Nat.add_zero]
      have hc := gen_smooth_y_center N true r (by omega)
      exact ⟨hc, hc⟩
    · have h2' : i ≤ w := by
        rw [gen_width_node, hwn] at hi
        exact_mod_cast hi
      obtain ⟨hlo, hhi⟩ := hmain i h1 h2'
      rw [hang, Real.tan_zero] at hlo hhi
      constructor
      · rw [hlo]; ring
      · rw [hhi]; ring
  · intro hf
    subst hf
    have hwf2 : (helipadRng N r).2.wellFormed :=
      Rng.wellFormed_uniform _ _ _ (Rng.wellFormed_uniformVec 0 ((H : ℝ) / 2) (N + 1) r hr)
    have hle : -(Real.pi / 6) ≤ Real.pi / 6 := by
      have := Real.pi_pos
      linarith
    have hb := Rng.uniform_mem ((helipadRng N r).2) (-(Real.pi / 6)) (Real.pi / 6) hwf2 hle
    have hang : (gen_uav_terrain N false r).angle =
        ((helipadRng N r).2.uniform (-(Real.pi / 6)) (Real.pi / 6)).1 := by
      rw [gen_angle]
      simp [angleRng]
    rw [hang]
    exact hb

/-- C1 witness: the platform-line property at `terrain_node = 90` (half-width
7) with a flat platform on the all-halves stream. -/
theorem C1_platform_line_witness :
    rHalf.wellFormed ∧ 1 ≤ (gen_uav_terrain 90 true rHalf).width_node ∧
      platformLineSpec 90 true rHalf :=
  ⟨rHalf_wellFormed, by rw [gen_width_node]; decide,
    C1_platform_line 90 true rHalf rHalf_wellFormed (by rw [gen_width_node]; decide)⟩

end UavLander
